import Mathlib

/-!
Shallow embedding of the credential-resolution core of `src/gitlab-client.ts`
(class `GitLabGraphQLClient`) together with the configuration shapes of
`config.ts`.  The mutable fields of the class (`baseClient`, `userClients`,
`schema`, `nextId` freshness counter for client-instance identity) are modelled
as an explicit state record threaded through every operation; JavaScript
`Map<string, GraphQLClient>` becomes an insertion-ordered association list;
thrown `Error` values become `Except String`; the network exchange performed by
`client.request(...)` is an oracle parameter `net`.
-/

namespace GitLabMCP

/-- Authentication mode, from `config.ts`: `z.enum(["shared", "per-user", "hybrid"])`. -/
inductive AuthMode where
  | shared
  | perUser
  | hybrid
  deriving DecidableEq, Repr

/-- Process configuration, from `ConfigSchema` in `config.ts`. -/
structure Config where
  gitlabUrl : String
  sharedAccessToken : Option String
  maxPageSize : Nat
  defaultTimeout : Nat
  authMode : AuthMode
  deriving DecidableEq, Repr

/-- Per-call user credential, from `UserConfigSchema` in `config.ts`. -/
structure UserConfig where
  accessToken : String
  gitlabUrl : Option String
  deriving DecidableEq, Repr

/-- A `GraphQLClient` instance.  `id` models JavaScript object identity: each
`new GraphQLClient(...)` yields a fresh instance, so two handles built by
distinct constructor calls are distinct even when endpoint and token agree. -/
structure GraphQLClient where
  id : Nat
  endpoint : String
  token : String
  deriving DecidableEq, Repr

/-- The introspected schema object (`buildClientSchema` result), abstracted to
the two capability surfaces the class reads from it.  `getQueryType()` /
`getMutationType()` may be absent (`null`), hence the `Option`. -/
structure GitLabSchema where
  queryType : Option (List String)
  mutationType : Option (List String)
  deriving DecidableEq, Repr

/-- The mutable state of a `GitLabGraphQLClient` instance: its immutable
config, a freshness counter for client identities, the optional shared
`baseClient`, the `userClients` map (insertion-ordered association list), and
the memoized `schema`. -/
structure ClientState where
  config : Config
  nextId : Nat
  baseClient : Option GraphQLClient
  userClients : List (String × GraphQLClient)
  schema : Option GitLabSchema
  deriving DecidableEq, Repr

/-- JavaScript `gitlabUrl.replace(/\/$/, "")`: drop a single trailing slash. -/
def stripTrailingSlash (s : String) : String :=
  if s.data.getLast? = some '/' then String.mk s.data.dropLast else s

/-- JavaScript `a || b` on an optional string: `undefined` and `""` are falsy. -/
def jsOrElse (o : Option String) (d : String) : String :=
  match o with
  | some s => if s = "" then d else s
  | none => d

/-- The cache key built in `getUserClient`:
`` `${userConfig.gitlabUrl || this.config.gitlabUrl}:${userConfig.accessToken}` ``. -/
def userKey (cfg : Config) (u : UserConfig) : String :=
  jsOrElse u.gitlabUrl cfg.gitlabUrl ++ ":" ++ u.accessToken

/-- Lookup in the `userClients` map (JavaScript `Map.has` / `Map.get`). -/
def mapGet : List (String × GraphQLClient) → String → Option GraphQLClient
  | [], _ => none
  | (k, v) :: rest, key => if key = k then some v else mapGet rest key

/-- `createClient(gitlabUrl, accessToken)`: builds the request endpoint by
stripping one trailing slash and appending `/api/graphql`, and constructs a
fresh `GraphQLClient` carrying the bearer token. -/
def createClient (st : ClientState) (gitlabUrl accessToken : String) :
    GraphQLClient × ClientState :=
  ({ id := st.nextId,
     endpoint := stripTrailingSlash gitlabUrl ++ "/api/graphql",
     token := accessToken },
   { st with nextId := st.nextId + 1 })

/-- The constructor of `GitLabGraphQLClient`: stores the config and, when a
shared access token is configured, eagerly creates the shared `baseClient`. -/
def mkClient (config : Config) : ClientState :=
  match config.sharedAccessToken with
  | some tok =>
    let st0 : ClientState :=
      { config := config, nextId := 0, baseClient := none, userClients := [], schema := none }
    let r := createClient st0 config.gitlabUrl tok
    { r.2 with baseClient := some r.1 }
  | none =>
    { config := config, nextId := 0, baseClient := none, userClients := [], schema := none }

/-- `getUserClient(userConfig)`: looks the cache up under the raw string key;
on a miss, creates a client for `(userConfig.gitlabUrl || config.gitlabUrl,
accessToken)` and inserts it; returns the cached client. -/
def getUserClient (st : ClientState) (u : UserConfig) : GraphQLClient × ClientState :=
  match mapGet st.userClients (userKey st.config u) with
  | some c => (c, st)
  | none =>
    let r := createClient st (jsOrElse u.gitlabUrl st.config.gitlabUrl) u.accessToken
    (r.1, { r.2 with userClients := r.2.userClients ++ [(userKey st.config u, r.1)] })

/-- Message thrown by `getClient` when a write operation has no user credential. -/
def writeAuthMsg : String :=
  "Write operations require user authentication. Please provide your GitLab credentials."

/-- Message thrown by `getClient` when a read needs user credentials (per-user or hybrid mode). -/
def userAuthMsg : String :=
  "This operation requires user authentication. Please provide your GitLab credentials."

/-- Message thrown by `getClient` when no authentication is configured at all. -/
def noAuthMsg : String :=
  "No authentication configured. Please provide GitLab credentials or configure a shared access token."

/-- `getClient(userConfig?, requiresWrite)`: user credential first; then the
write guard; then the shared client for reads outside per-user mode; then the
mode-dependent rejection. -/
def getClient (st : ClientState) (userConfig : Option UserConfig) (requiresWrite : Bool) :
    Except String (GraphQLClient × ClientState) :=
  match userConfig with
  | some u => .ok (getUserClient st u)
  | none =>
    if requiresWrite then
      .error writeAuthMsg
    else
      match st.baseClient with
      | some b =>
        if st.config.authMode ≠ AuthMode.perUser then .ok (b, st)
        else .error userAuthMsg
      | none =>
        if st.config.authMode = AuthMode.perUser ∨ st.config.authMode = AuthMode.hybrid then
          .error userAuthMsg
        else
          .error noAuthMsg

/-- JavaScript string interpolation `` `${error}` `` applied to an `Error` object. -/
def jsErrorString (msg : String) : String := "Error: " ++ msg

/-- `query(query, variables, userConfig?, requiresWrite)`: resolves a client and
runs the exchange; the single `catch` wraps every failure, the client-resolution
throw as well as the request failure, into `"GraphQL query failed: " + error`.
`net` is the oracle for `client.request(query, variables)`, its error already in
stringified form. -/
def query (st : ClientState) (net : GraphQLClient → Except String String)
    (userConfig : Option UserConfig) (requiresWrite : Bool) :
    Except String String × ClientState :=
  match getClient st userConfig requiresWrite with
  | .error e => (.error ("GraphQL query failed: " ++ jsErrorString e), st)
  | .ok (c, st') =>
    match net c with
    | .ok r => (.ok r, st')
    | .error e => (.error ("GraphQL query failed: " ++ e), st')

/-- `introspectSchema(userConfig?)`: returns at once when a schema is already
stored; otherwise resolves a client as a read (`requiresWrite` defaulting to
`false`), runs the introspection exchange (`net` models
`client.request(getIntrospectionQuery())` plus `buildClientSchema`), stores the
snapshot on success, and wraps any failure into
`"Failed to introspect GitLab GraphQL schema: " + error`.  The third component
counts the network exchanges issued by the call. -/
def introspectSchema (st : ClientState) (net : GraphQLClient → Except String GitLabSchema)
    (userConfig : Option UserConfig) : Except String Unit × ClientState × Nat :=
  match st.schema with
  | some _ => (.ok (), st, 0)
  | none =>
    match getClient st userConfig false with
    | .error e =>
      (.error ("Failed to introspect GitLab GraphQL schema: " ++ jsErrorString e), st, 0)
    | .ok (c, st') =>
      match net c with
      | .ok s => (.ok (), { st' with schema := some s }, 1)
      | .error e =>
        (.error ("Failed to introspect GitLab GraphQL schema: " ++ e), st', 1)

/-- Repeats `introspectSchema` with the same credential `k` times, returning
the final state and the total number of network exchanges issued. -/
def introspectK (net : GraphQLClient → Except String GitLabSchema)
    (u : Option UserConfig) : ClientState → Nat → ClientState × Nat
  | st, 0 => (st, 0)
  | st, k + 1 =>
    let r := introspectSchema st net u
    let rest := introspectK net u r.2.1 k
    (rest.1, r.2.2 + rest.2)

/-- Runs a sequence of `getUserClient` calls, keeping only the state. -/
def runCalls (st : ClientState) (us : List UserConfig) : ClientState :=
  us.foldl (fun s u => (getUserClient s u).2) st

/-- `getSchema()`. -/
def getSchema (st : ClientState) : Option GitLabSchema := st.schema

/-- `getAvailableQueries()`: empty until a snapshot exists or when the snapshot
has no query root, otherwise the query field names. -/
def getAvailableQueries (st : ClientState) : List String :=
  match st.schema with
  | none => []
  | some s =>
    match s.queryType with
    | none => []
    | some fields => fields

/-- `getAvailableMutations()`: empty until a snapshot exists or when the
snapshot has no mutation root, otherwise the mutation field names. -/
def getAvailableMutations (st : ClientState) : List String :=
  match st.schema with
  | none => []
  | some s =>
    match s.mutationType with
    | none => []
    | some fields => fields

/-- The object identities of every client handle held by the state: the shared
base client, if any, followed by the cached user clients. -/
def clientIds (st : ClientState) : List Nat :=
  (match st.baseClient with
   | some c => [c.id]
   | none => []) ++ st.userClients.map (fun p => p.2.id)

/-- Well-formedness of a state: every held handle was built by a past
`createClient` call (its identity is below the freshness counter) and no two
held handles are the same object. `mkClient` establishes this and every
operation preserves it. -/
def WF (st : ClientState) : Prop :=
  (∀ i ∈ clientIds st, i < st.nextId) ∧ (clientIds st).Nodup

instance instDecWF (st : ClientState) : Decidable (WF st) :=
  inferInstanceAs (Decidable ((∀ i ∈ clientIds st, i < st.nextId) ∧ (clientIds st).Nodup))

/-! Concrete fixtures used by witnesses and counterexamples. -/

/-- Hybrid-mode configuration with a shared token, as in end-to-end scenario B. -/
def exCfg : Config :=
  { gitlabUrl := "https://gitlab.com", sharedAccessToken := some "sharedtok",
    maxPageSize := 50, defaultTimeout := 30000, authMode := AuthMode.hybrid }

/-- The state right after `new GitLabGraphQLClient(exCfg)`. -/
def exSt : ClientState := mkClient exCfg

/-- The shared base client held by `exSt`. -/
def exBaseClient : GraphQLClient :=
  { id := 0, endpoint := "https://gitlab.com/api/graphql", token := "sharedtok" }

/-- A user credential with token `"T"` and no endpoint override. -/
def exUserT : UserConfig := { accessToken := "T", gitlabUrl := none }

/-- Shared-mode configuration with no token configured (scenario D). -/
def exCfgSharedNoTok : Config :=
  { gitlabUrl := "https://gitlab.com", sharedAccessToken := none,
    maxPageSize := 50, defaultTimeout := 30000, authMode := AuthMode.shared }

/-- The state right after constructing against `exCfgSharedNoTok`. -/
def exStSharedNoTok : ClientState := mkClient exCfgSharedNoTok

/-- Hybrid-mode configuration with no shared token. -/
def exCfgNoShared : Config :=
  { gitlabUrl := "https://gitlab.com", sharedAccessToken := none,
    maxPageSize := 50, defaultTimeout := 30000, authMode := AuthMode.hybrid }

/-- A network oracle that fails with a message equal to the stringification of
the write-authentication rejection: a transport failure indistinguishable from
the wrapped authorization rejection. -/
def netAuthLike : GraphQLClient → Except String String :=
  fun _ => .error (jsErrorString writeAuthMsg)

/-- A concrete schema snapshot. -/
def exSchema : GitLabSchema :=
  { queryType := some ["currentUser", "project"], mutationType := some ["issueCreate"] }

/-- An introspection oracle that always succeeds with `exSchema`. -/
def netIntroOk : GraphQLClient → Except String GitLabSchema :=
  fun _ => .ok exSchema

/-- An introspection oracle that always fails. -/
def netIntroFail : GraphQLClient → Except String GitLabSchema :=
  fun _ => .error "request to https://gitlab.com/api/graphql failed"

/-- Credential whose override carries a numeric port, colliding under the raw
string key with `uColonTok`. -/
def uPortUrl : UserConfig :=
  { accessToken := "tok", gitlabUrl := some "https://gitlab.com:8080" }

/-- Credential whose token contains a colon, colliding under the raw string key
with `uPortUrl` although the (endpoint, token) pairs differ. -/
def uColonTok : UserConfig :=
  { accessToken := "8080:tok", gitlabUrl := some "https://gitlab.com" }

/-- Credential whose endpoint override ends in a slash. -/
def uSlash : UserConfig :=
  { accessToken := "tok", gitlabUrl := some "https://gitlab.example/" }

/-- The same credential as `uSlash` with the trailing slash removed. -/
def uNoSlash : UserConfig :=
  { accessToken := "tok", gitlabUrl := some "https://gitlab.example" }

/-- A state holding a snapshot although its auth policy rejects every read:
per-user mode, no shared client, no user credential will be supplied. -/
def exStSchemaOnly : ClientState :=
  { config := { gitlabUrl := "https://gitlab.com", sharedAccessToken := none,
                maxPageSize := 50, defaultTimeout := 30000, authMode := AuthMode.perUser },
    nextId := 0, baseClient := none, userClients := [], schema := some exSchema }

/-! Helper lemmas. -/

theorem mapGet_append (l1 l2 : List (String × GraphQLClient)) (k : String) :
    mapGet (l1 ++ l2) k =
      match mapGet l1 k with
      | some v => some v
      | none => mapGet l2 k := by
  induction l1 with
  | nil => simp [mapGet]
  | cons p rest ih =>
    obtain ⟨a, b⟩ := p
    by_cases h : k = a <;> simp [mapGet, h, ih]

theorem mapGet_mem {l : List (String × GraphQLClient)} {k : String} {v : GraphQLClient}
    (h : mapGet l k = some v) : (k, v) ∈ l := by
  induction l with
  | nil => simp [mapGet] at h
  | cons p rest ih =>
    obtain ⟨a, b⟩ := p
    by_cases hk : k = a
    · subst hk
      simp [mapGet] at h
      simp [h]
    · simp [mapGet, hk] at h
      exact List.mem_cons_of_mem _ (ih h)

theorem getUserClient_config (st : ClientState) (u : UserConfig) :
    (getUserClient st u).2.config = st.config := by
  unfold getUserClient
  rcases h : mapGet st.userClients (userKey st.config u) with _ | c <;>
    simp [h, createClient]

theorem getUserClient_baseClient (st : ClientState) (u : UserConfig) :
    (getUserClient st u).2.baseClient = st.baseClient := by
  unfold getUserClient
  rcases h : mapGet st.userClients (userKey st.config u) with _ | c <;>
    simp [h, createClient]

theorem getUserClient_schema (st : ClientState) (u : UserConfig) :
    (getUserClient st u).2.schema = st.schema := by
  unfold getUserClient
  rcases h : mapGet st.userClients (userKey st.config u) with _ | c <;>
    simp [h, createClient]

theorem getClient_ok_schema {st : ClientState} {u : Option UserConfig} {w : Bool}
    {c : GraphQLClient} {st' : ClientState}
    (h : getClient st u w = .ok (c, st')) : st'.schema = st.schema := by
  rcases u with _ | uc
  · unfold getClient at h
    rcases w with _ | _
    · rcases hb : st.baseClient with _ | b
      · simp [hb] at h
        split at h <;> simp at h
      · simp [hb] at h
        split at h <;> simp at h
        rw [← h.2]
    · simp at h
  · unfold getClient at h
    simp at h
    have h2 : st' = (getUserClient st uc).2 := by rw [h]
    rw [h2, getUserClient_schema]

theorem introspect_of_some (st : ClientState) (net : GraphQLClient → Except String GitLabSchema)
    (u : Option UserConfig) (s : GitLabSchema) (h : st.schema = some s) :
    introspectSchema st net u = (.ok (), st, 0) := by
  unfold introspectSchema
  simp [h]

theorem introspectK_of_some (net : GraphQLClient → Except String GitLabSchema)
    (u : Option UserConfig) (st : ClientState) (s : GitLabSchema)
    (h : st.schema = some s) (k : Nat) :
    introspectK net u st k = (st, 0) := by
  induction k with
  | zero => rfl
  | succ n ih => simp [introspectK, introspect_of_some st net u s h, ih]

/-! Claim theorems. -/

/-- C1: a write operation with no user credential is rejected by `getClient`
with the write-authentication message; whenever `getClient` is called with
`requiresWrite = true` and succeeds, the returned client comes from the
user-client path (a credential was supplied), and under a well-formed state it
is never the shared `baseClient`. -/
theorem getClient_write_never_shared (st : ClientState) (u : Option UserConfig) :
    (u = none → getClient st u true = .error writeAuthMsg) ∧
    (∀ c st', getClient st u true = .ok (c, st') →
      ∃ uc, u = some uc ∧ (c, st') = getUserClient st uc) ∧
    (∀ c st' b, WF st → st.baseClient = some b →
      getClient st u true = .ok (c, st') → c ≠ b) := by
  refine ⟨?_, ?_, ?_⟩
  · rintro rfl
    rfl
  · intro c st' h
    rcases u with _ | uc
    · simp [getClient] at h
    · refine ⟨uc, rfl, ?_⟩
      unfold getClient at h
      simp only [Except.ok.injEq] at h
      exact h.symm
  · intro c st' b hwf hb h
    rcases u with _ | uc
    · simp [getClient] at h
    · have hok : getUserClient st uc = (c, st') := by
        unfold getClient at h
        simpa using h
      have hc : c = (getUserClient st uc).1 := by rw [hok]
      have hids : clientIds st = b.id :: st.userClients.map (fun p => p.2.id) := by
        simp [clientIds, hb]
      intro hcb
      rcases hm : mapGet st.userClients (userKey st.config uc) with _ | c0
      · have hfresh : (getUserClient st uc).1.id = st.nextId := by
          unfold getUserClient
          rw [hm]
          rfl
        have hblt : b.id < st.nextId :=
          hwf.1 b.id (by rw [hids]; exact List.mem_cons_self _ _)
        rw [← hc, hcb] at hfresh
        omega
      · have hhit : (getUserClient st uc).1 = c0 := by
          unfold getUserClient
          rw [hm]
        have hidmem : c0.id ∈ st.userClients.map (fun p => p.2.id) :=
          List.mem_map_of_mem _ (mapGet_mem hm)
        have hnd := hwf.2
        rw [hids] at hnd
        refine (List.nodup_cons.mp hnd).1 ?_
        rw [← hhit, ← hc, hcb] at hidmem
        exact hidmem

/-- C1 witness: in the hybrid state with a shared client, a write with no
credential is rejected, and a write resolved with a user credential yields a
client distinct from the shared base client. -/
theorem getClient_write_never_shared_w :
    getClient exSt none true = .error writeAuthMsg ∧
    (getUserClient exSt exUserT).1 ≠ exBaseClient :=
  ⟨(getClient_write_never_shared exSt none).1 rfl,
   (getClient_write_never_shared exSt (some exUserT)).2.2
     (getUserClient exSt exUserT).1 (getUserClient exSt exUserT).2 exBaseClient
     (by decide) (by decide) rfl⟩

/-- C2: a supplied user credential always wins: `getClient` returns the
user-bound client for it, whatever the operation kind (`requiresWrite`), the
auth mode, and the presence of a shared client (both carried by `st`). -/
theorem getClient_user_precedence (st : ClientState) (u : UserConfig)
    (requiresWrite : Bool) :
    getClient st (some u) requiresWrite = .ok (getUserClient st u) := rfl

/-- C3: the read decision without a user credential: shared client present and
mode not per-user gives the shared client; otherwise per-user or hybrid mode
rejects asking for user authentication; otherwise (shared mode, no shared
client) rejects with the no-authentication message. -/
theorem getClient_read_no_user (st : ClientState) :
    (∀ b, st.baseClient = some b → st.config.authMode ≠ AuthMode.perUser →
        getClient st none false = .ok (b, st)) ∧
    ((st.baseClient = none ∨ st.config.authMode = AuthMode.perUser) →
     (st.config.authMode = AuthMode.perUser ∨ st.config.authMode = AuthMode.hybrid) →
        getClient st none false = .error userAuthMsg) ∧
    (st.baseClient = none → st.config.authMode = AuthMode.shared →
        getClient st none false = .error noAuthMsg) := by
  refine ⟨?_, ?_, ?_⟩
  · intro b hb hm
    simp [getClient, hb, hm]
  · intro hor hmode
    rcases hor with hb | hm
    · rw [getClient, hb]
      rcases hmode with h | h <;> simp [h]
    · rcases hb : st.baseClient with _ | b <;> simp [getClient, hb, hm]
  · intro hb hm
    simp [getClient, hb, hm]

/-- C3 witness: hybrid with a shared token resolves a credential-less read to
the shared client; shared mode with no token rejects with the
no-authentication message. -/
theorem getClient_read_no_user_w :
    getClient exSt none false = .ok (exBaseClient, exSt) ∧
    getClient exStSharedNoTok none false = .error noAuthMsg :=
  ⟨(getClient_read_no_user exSt).1 exBaseClient (by decide) (by decide),
   (getClient_read_no_user exStSharedNoTok).2.2 (by decide) (by decide)⟩

/-- C4 counterexample: in the hybrid state with a shared token (scenario B), a
write with no user credential makes `query` raise the generic wrapped error
`"GraphQL query failed: Error: Write operations require user authentication.
..."`, and an authorized read whose transport exchange fails can raise the
very same error value: the authorization rejection is not distinguishable in
kind from a request failure, because `query`'s single catch wraps both the
`getClient` throw and the transport failure identically. -/
theorem query_reject_not_distinguishable :
    (query exSt netAuthLike none true).1 =
      .error ("GraphQL query failed: " ++ jsErrorString writeAuthMsg) ∧
    (query exSt netAuthLike none false).1 =
      .error ("GraphQL query failed: " ++ jsErrorString writeAuthMsg) := by
  constructor <;> rfl

/-- C4 amended: `query` wraps every failure, whether `getClient` rejected the
call or the network exchange failed, into one generic error prefixed
`"GraphQL query failed: "`; rejections carry the auth policy's reason inside
the wrapped message (through JavaScript `Error` stringification), transport
failures carry their stringified cause, and an authorized successful exchange
returns the response unchanged. -/
theorem query_error_wrapping (st : ClientState) (net : GraphQLClient → Except String String)
    (u : Option UserConfig) (w : Bool) :
    (∀ e, getClient st u w = .error e →
      query st net u w = (.error ("GraphQL query failed: " ++ jsErrorString e), st)) ∧
    (∀ c st' e, getClient st u w = .ok (c, st') → net c = .error e →
      query st net u w = (.error ("GraphQL query failed: " ++ e), st')) ∧
    (∀ c st' r, getClient st u w = .ok (c, st') → net c = .ok r →
      query st net u w = (.ok r, st')) := by
  refine ⟨?_, ?_, ?_⟩
  · intro e h
    simp [query, h]
  · intro c st' e h hn
    simp [query, h, hn]
  · intro c st' r h hn
    simp [query, h, hn]

/-- C4 amended witness: scenario B, concretely: the rejection of a
credential-less write surfaces as the generic wrapped message. -/
theorem query_error_wrapping_w :
    query exSt netAuthLike none true =
      (.error ("GraphQL query failed: " ++ jsErrorString writeAuthMsg), exSt) :=
  (query_error_wrapping exSt netAuthLike none true).1 writeAuthMsg rfl

theorem mapGet_after_call (st : ClientState) (u : UserConfig) :
    mapGet (getUserClient st u).2.userClients (userKey st.config u) =
      some (getUserClient st u).1 := by
  rcases hm : mapGet st.userClients (userKey st.config u) with _ | c
  · unfold getUserClient
    rw [hm]
    simp [createClient, mapGet_append, hm, mapGet]
  · unfold getUserClient
    rw [hm]
    exact hm

theorem getUserClient_hit {st : ClientState} {u : UserConfig} {c : GraphQLClient}
    (h : mapGet st.userClients (userKey st.config u) = some c) :
    getUserClient st u = (c, st) := by
  unfold getUserClient
  rw [h]

theorem getUserClient_miss_userClients {st : ClientState} {u : UserConfig}
    (h : mapGet st.userClients (userKey st.config u) = none) :
    (getUserClient st u).2.userClients =
      st.userClients ++ [(userKey st.config u, (getUserClient st u).1)] := by
  unfold getUserClient
  rw [h]
  rfl

/-- C5: `getUserClient` is idempotent per credential identity: when two user
credentials have the same effective endpoint and the same token, the second
call returns the very same client handle as the first and leaves the state
untouched, so no second handle is ever constructed for that identity. -/
theorem getUserClient_idempotent (st : ClientState) (u1 u2 : UserConfig)
    (hend : jsOrElse u1.gitlabUrl st.config.gitlabUrl =
            jsOrElse u2.gitlabUrl st.config.gitlabUrl)
    (htok : u1.accessToken = u2.accessToken) :
    (getUserClient ((getUserClient st u1).2) u2).1 = (getUserClient st u1).1 ∧
    (getUserClient ((getUserClient st u1).2) u2).2 = (getUserClient st u1).2 := by
  have hkey : userKey st.config u2 = userKey st.config u1 := by
    unfold userKey
    rw [hend, htok]
  have hm2 : mapGet (getUserClient st u1).2.userClients
      (userKey (getUserClient st u1).2.config u2) = some (getUserClient st u1).1 := by
    rw [getUserClient_config st u1, hkey]
    exact mapGet_after_call st u1
  rw [getUserClient_hit hm2]
  exact ⟨rfl, rfl⟩

/-- C5 witness: two calls carrying token `"T"` and no endpoint override yield
the same handle and the same state. -/
theorem getUserClient_idempotent_w :
    (getUserClient ((getUserClient exSt exUserT).2) exUserT).1 =
      (getUserClient exSt exUserT).1 ∧
    (getUserClient ((getUserClient exSt exUserT).2) exUserT).2 =
      (getUserClient exSt exUserT).2 :=
  getUserClient_idempotent exSt exUserT exUserT rfl rfl

/-- C6 counterexample: two credentials with distinct identities, the ordered
pairs (effective endpoint, token) — `("https://gitlab.com:8080", "tok")` and
`("https://gitlab.com", "8080:tok")` — collide under the raw string cache key,
so after the two calls the cache holds one user handle, not two. -/
theorem cache_growth_counterexample :
    ((jsOrElse uPortUrl.gitlabUrl exCfgNoShared.gitlabUrl, uPortUrl.accessToken) ≠
      (jsOrElse uColonTok.gitlabUrl exCfgNoShared.gitlabUrl, uColonTok.accessToken)) ∧
    (runCalls (mkClient exCfgNoShared) [uPortUrl, uColonTok]).userClients.length = 1 := by
  constructor
  · decide
  · rfl

/-- C6 amended: after N `getUserClient` calls whose cache keys — the raw
strings `endpoint ++ ":" ++ token` — are pairwise distinct and not yet cached,
the cache holds exactly N more user-bound handles, and the shared handle is
untouched.  Distinct (endpoint, token) pairs guarantee this only when no token
contains a colon: the key is not injective on the pairs, as the
counterexample shows. -/
theorem cache_growth_distinct_keys (us : List UserConfig) : ∀ st : ClientState,
    (us.map (fun u => userKey st.config u)).Nodup →
    (∀ u ∈ us, mapGet st.userClients (userKey st.config u) = none) →
    (runCalls st us).userClients.length = st.userClients.length + us.length ∧
    (runCalls st us).baseClient = st.baseClient := by
  induction us with
  | nil =>
    intro st _ _
    exact ⟨rfl, rfl⟩
  | cons u rest ih =>
    intro st hnd hfresh
    have hfu : mapGet st.userClients (userKey st.config u) = none :=
      hfresh u (List.mem_cons_self _ _)
    have hucs := getUserClient_miss_userClients hfu
    have hcfg := getUserClient_config st u
    have hbase := getUserClient_baseClient st u
    have hnd0 : (userKey st.config u :: rest.map (fun v => userKey st.config v)).Nodup := by
      simpa using hnd
    have hkne : ∀ v ∈ rest, userKey st.config v ≠ userKey st.config u := by
      intro v hv heq
      exact (List.nodup_cons.mp hnd0).1 (heq ▸ List.mem_map_of_mem _ hv)
    have hfresh' : ∀ v ∈ rest,
        mapGet (getUserClient st u).2.userClients
          (userKey (getUserClient st u).2.config v) = none := by
      intro v hv
      rw [hcfg, hucs, mapGet_append, hfresh v (List.mem_cons_of_mem _ hv)]
      simp [mapGet, hkne v hv]
    have hres := ih (getUserClient st u).2 (by rw [hcfg]; exact (List.nodup_cons.mp hnd0).2)
      hfresh'
    have hstep : runCalls st (u :: rest) = runCalls (getUserClient st u).2 rest := rfl
    constructor
    · rw [hstep, hres.1, hucs]
      simp [List.length_append]
      omega
    · rw [hstep, hres.2, hbase]

/-- C6 amended witness: two credentials with distinct cache keys grow the
cache by exactly two handles and leave the shared handle absent. -/
theorem cache_growth_distinct_keys_w :
    (runCalls (mkClient exCfgNoShared) [exUserT, uNoSlash]).userClients.length =
      (mkClient exCfgNoShared).userClients.length + 2 ∧
    (runCalls (mkClient exCfgNoShared) [exUserT, uNoSlash]).baseClient =
      (mkClient exCfgNoShared).baseClient :=
  cache_growth_distinct_keys [exUserT, uNoSlash] (mkClient exCfgNoShared)
    (by decide) (by decide)

theorem introspect_eval_err {st : ClientState}
    {net : GraphQLClient → Except String GitLabSchema} {u : Option UserConfig} {e : String}
    (h0 : st.schema = none) (hg : getClient st u false = .error e) :
    introspectSchema st net u =
      (.error ("Failed to introspect GitLab GraphQL schema: " ++ jsErrorString e), st, 0) := by
  simp [introspectSchema, h0, hg]

theorem introspect_eval_netfail {st : ClientState}
    {net : GraphQLClient → Except String GitLabSchema} {u : Option UserConfig}
    {c : GraphQLClient} {st' : ClientState} {e : String}
    (h0 : st.schema = none) (hg : getClient st u false = .ok (c, st'))
    (hn : net c = .error e) :
    introspectSchema st net u =
      (.error ("Failed to introspect GitLab GraphQL schema: " ++ e), st', 1) := by
  simp [introspectSchema, h0, hg, hn]

theorem introspect_eval_ok {st : ClientState}
    {net : GraphQLClient → Except String GitLabSchema} {u : Option UserConfig}
    {c : GraphQLClient} {st' : ClientState} {s : GitLabSchema}
    (h0 : st.schema = none) (hg : getClient st u false = .ok (c, st'))
    (hn : net c = .ok s) :
    introspectSchema st net u = (.ok (), { st' with schema := some s }, 1) := by
  simp [introspectSchema, h0, hg, hn]

/-- C7: `introspectSchema` memoizes: starting with no stored snapshot, when the
first call succeeds it resolved its client through `getClient` as a read
(`requiresWrite = false`), issued exactly one network exchange and stored the
snapshot; every repeat call with the same credential returns at once with zero
exchanges, so K repeated calls issue one exchange in total. -/
theorem introspect_memoization (st : ClientState)
    (net : GraphQLClient → Except String GitLabSchema) (u : Option UserConfig) (k : Nat)
    (h0 : st.schema = none)
    (hok : (introspectSchema st net u).1 = .ok ()) :
    (∃ c st' s, getClient st u false = .ok (c, st') ∧ net c = .ok s ∧
        introspectSchema st net u = (.ok (), { st' with schema := some s }, 1)) ∧
    (∀ u2, introspectSchema (introspectSchema st net u).2.1 net u2 =
        (.ok (), (introspectSchema st net u).2.1, 0)) ∧
    introspectK net u st (k + 1) = ((introspectSchema st net u).2.1, 1) := by
  rcases hg : getClient st u false with e | p
  · rw [introspect_eval_err h0 hg] at hok
    simp at hok
  · obtain ⟨c, st'⟩ := p
    rcases hn : net c with e | s
    · rw [introspect_eval_netfail h0 hg hn] at hok
      simp at hok
    · have hres : introspectSchema st net u = (.ok (), { st' with schema := some s }, 1) :=
        introspect_eval_ok h0 hg hn
      refine ⟨⟨c, st', s, rfl, hn, hres⟩, ?_, ?_⟩
      · intro u2
        rw [hres]
        exact introspect_of_some _ net u2 s rfl
      · have hK : introspectK net u ({ st' with schema := some s } : ClientState) k =
            ({ st' with schema := some s }, 0) :=
          introspectK_of_some net u _ s rfl k
        simp [introspectK, hres, hK]

/-- C7 witness: from the freshly constructed hybrid state, three repeated
introspection calls with a succeeding oracle issue exactly one exchange. -/
theorem introspect_memoization_w :
    introspectK netIntroOk none exSt (2 + 1) =
      ((introspectSchema exSt netIntroOk none).2.1, 1) :=
  (introspect_memoization exSt netIntroOk none 2 rfl rfl).2.2

/-- C8: a failed introspection does not poison the cache: when the call fails
(`hf`), the stored snapshot is still absent afterwards, and a later retry with
any credential and any oracle that then succeed populates the snapshot. -/
theorem introspect_failure_not_poisoning (st : ClientState)
    (net : GraphQLClient → Except String GitLabSchema) (u : Option UserConfig) (e : String)
    (h0 : st.schema = none)
    (hf : (introspectSchema st net u).1 = .error e) :
    (introspectSchema st net u).2.1.schema = none ∧
    (∀ net2 u2 c st' s,
      getClient (introspectSchema st net u).2.1 u2 false = .ok (c, st') →
      net2 c = .ok s →
      introspectSchema (introspectSchema st net u).2.1 net2 u2 =
        (.ok (), { st' with schema := some s }, 1)) := by
  have hnone : (introspectSchema st net u).2.1.schema = none := by
    rcases hg : getClient st u false with e1 | p
    · rw [introspect_eval_err h0 hg]
      exact h0
    · obtain ⟨c, st'⟩ := p
      have hs' : st'.schema = st.schema := getClient_ok_schema hg
      rcases hn : net c with e2 | s
      · rw [introspect_eval_netfail h0 hg hn]
        rw [h0] at hs'
        exact hs'
      · rw [introspect_eval_ok h0 hg hn] at hf
        simp at hf
  refine ⟨hnone, ?_⟩
  intro net2 u2 c st' s hg2 hn2
  exact introspect_eval_ok hnone hg2 hn2

/-- C8 witness: a failed introspection against the hybrid state leaves the
snapshot absent, and an immediate retry with a succeeding oracle stores it. -/
theorem introspect_failure_not_poisoning_w :
    (introspectSchema exSt netIntroFail none).2.1.schema = none ∧
    introspectSchema (introspectSchema exSt netIntroFail none).2.1 netIntroOk none =
      (.ok (), { exSt with schema := some exSchema }, 1) := by
  have h := introspect_failure_not_poisoning exSt netIntroFail none
    ("Failed to introspect GitLab GraphQL schema: request to https://gitlab.com/api/graphql failed")
    rfl rfl
  exact ⟨h.1, h.2 netIntroOk none exBaseClient exSt exSchema rfl rfl⟩

/-- C9: once a snapshot is stored, `introspectSchema` returns immediately and
successfully for every credential — including none at all and states whose
auth policy rejects every read — independent of the network oracle, with zero
exchanges and no client resolution; the single snapshot then backs
`getAvailableQueries` and `getAvailableMutations` for every caller, whatever
identity produced it. -/
theorem introspect_snapshot_global (st : ClientState) (s : GitLabSchema)
    (h : st.schema = some s) :
    (∀ net u, introspectSchema st net u = (.ok (), st, 0)) ∧
    getAvailableQueries st = s.queryType.getD [] ∧
    getAvailableMutations st = s.mutationType.getD [] := by
  refine ⟨fun net u => introspect_of_some st net u s h, ?_, ?_⟩
  · unfold getAvailableQueries
    rw [h]
    rcases hq : s.queryType with _ | fields <;> simp [hq]
  · unfold getAvailableMutations
    rw [h]
    rcases hq : s.mutationType with _ | fields <;> simp [hq]

/-- C9 witness: a state in per-user mode with no shared client — whose auth
policy rejects every credential-less read — still answers introspection at
once from the stored snapshot, even under an always-failing oracle, and
reports that snapshot's query surface. -/
theorem introspect_snapshot_global_w :
    introspectSchema exStSchemaOnly netIntroFail none = (.ok (), exStSchemaOnly, 0) ∧
    getAvailableQueries exStSchemaOnly = ["currentUser", "project"] :=
  ⟨(introspect_snapshot_global exStSchemaOnly exSchema rfl).1 netIntroFail none,
   (introspect_snapshot_global exStSchemaOnly exSchema rfl).2.1⟩

/-- C10: the cache key is the raw concatenation `endpoint ++ ":" ++ token` on
the unnormalized endpoint, while the request URL strips a trailing slash:
credentials differing only by a trailing slash yield two cached handles whose
request endpoints are identical, and the key is not injective on
(effective endpoint, token) pairs — a colon inside the token makes two
distinct pairs collide. -/
theorem cache_key_raw_concat :
    (∀ (cfg : Config) (u : UserConfig),
        userKey cfg u = jsOrElse u.gitlabUrl cfg.gitlabUrl ++ ":" ++ u.accessToken) ∧
    ((runCalls (mkClient exCfgNoShared) [uSlash, uNoSlash]).userClients.length = 2 ∧
      (getUserClient (mkClient exCfgNoShared) uSlash).1.endpoint =
        (getUserClient ((getUserClient (mkClient exCfgNoShared) uSlash).2) uNoSlash).1.endpoint ∧
      (getUserClient (mkClient exCfgNoShared) uSlash).1 ≠
        (getUserClient ((getUserClient (mkClient exCfgNoShared) uSlash).2) uNoSlash).1) ∧
    (userKey exCfgNoShared uPortUrl = userKey exCfgNoShared uColonTok ∧
      (jsOrElse uPortUrl.gitlabUrl exCfgNoShared.gitlabUrl, uPortUrl.accessToken) ≠
        (jsOrElse uColonTok.gitlabUrl exCfgNoShared.gitlabUrl, uColonTok.accessToken)) := by
  refine ⟨fun cfg u => rfl, ⟨?_, ?_, ?_⟩, ?_, ?_⟩ <;> decide

end GitLabMCP
